import Mathlib

set_option maxRecDepth 100000

/-!
# Verification of the PeFloSEG channel-pruning pipeline

Shallow embedding of the channel-pruning code of this repository:

* `src/prune/prune.py`, function `prune_model` — channel-importance scoring,
  global threshold selection, per-layer mask generation with a
  minimum-channel floor, and the weight-transplant loop that copies the
  surviving weights of the original network into the rebuilt network;
* `src/prune/parse_yolo.py`, function `parse_pruned_model` — the provenance
  map (`from_to_map`) construction, in particular for the three-branch
  composite (`C3Pruned`) blocks.

Tensors are modelled as lists of rationals (`List ℚ`); a convolution kernel
is modelled as its out-channel × in-channel matrix `List (List ℚ)` (the
spatial kernel dimensions play no role in any claim).  Boolean channel
masks are `List Bool`.  Layer names are `String`s, as in the source, and
Python dictionaries are association lists looked up with `alookup`.
-/

/-- Absolute value on ℚ, modelling `tensor.abs()`. -/
def qabs (x : ℚ) : ℚ := if x < 0 then -x else x

/-- Ascending sort, modelling `torch.sort(bn_weights)[0]` (`prune.py:384`). -/
def sortAsc (l : List ℚ) : List ℚ := List.insertionSort (· ≤ ·) l

/-- A normalization (BatchNorm) layer of the original network as the scorer
sees it: its name (module path), its learned per-channel scale (`weight`)
and shift (`bias`), and whether its name is in `ignore_bn_list`
(`prune.py:361-371`: residual-add bottleneck branches and the `Proto`
segmentation-prototype head). -/
structure BNLayer where
  name : String
  weight : List ℚ
  bias : List ℚ
  excluded : Bool
deriving DecidableEq

/-- Modelled from the spec: `obtain_bn_mask` is imported from
`prune_utils`, which is not part of the repository snapshot.  The spec
(§4.1 step 4) says "For each included layer: mask[c] = scale[c] >
threshold". -/
def obtain_bn_mask (thre : ℚ) (w : List ℚ) : List Bool :=
  w.map (fun s => decide (thre < s))

/-- Modelled from the spec: `gather_bn_weights` is imported from
`prune_utils`, which is not part of the repository snapshot.  The spec
(§4.1 step 1) says the pool is the concatenation of the per-channel scale
magnitudes of every normalization layer not in the exclusion set
(`model_list` after the `ignore_bn_list` filter, `prune.py:377,383`). -/
def gather_bn_weights (ls : List BNLayer) : List ℚ :=
  (ls.filter (fun l => !l.excluded)).flatMap (fun l => l.weight.map qabs)

/-- The rank of the global threshold in the ascending-sorted pool:
`thre_index = int(len(sorted_bn) * opt.percent)` (`prune.py:400`).
For a rational ratio `p` with numerator `p.num` and (positive) denominator
`p.den`, the exact product `len * p` is `(len * p.num) / p.den`, and
Python `int()` truncates toward zero, which is `Int.tdiv`. -/
def threIndex (poolLen : Nat) (optPercent : ℚ) : Nat :=
  (Int.tdiv ((poolLen : Int) * optPercent.num) (optPercent.den : Int)).toNat

/-- The global threshold: `thre = sorted_bn[thre_index]` (`prune.py:401`).
`none` models the Python `IndexError` when the rank is out of range.
Note the rank is computed from the global `opt.percent`, not from the
`percent` parameter of `prune_model`. -/
def threOf (ls : List BNLayer) (optPercent : ℚ) : Option ℚ :=
  (sortAsc (gather_bn_weights ls)).get? (threIndex (gather_bn_weights ls).length optPercent)

/-- The raw per-layer mask before floor enforcement (`prune.py:469-471`):
`mask = obtain_bn_mask(bn_module, thre)`, replaced by all-ones when the
layer is in `ignore_bn_list`. -/
def rawMask (thre : ℚ) (l : BNLayer) : List Bool :=
  if l.excluded then List.replicate l.weight.length true
  else obtain_bn_mask thre l.weight

/-- Indices sorted by value descending, modelling
`torch.sort(weight_copy, descending=True)[1]` (`prune.py:480`); it is
applied to `weight_copy = bn_module.weight.data.abs().clone()`
(`prune.py:468`), so the argument here is the list of magnitudes. -/
def argsortDesc (v : List ℚ) : List Nat :=
  List.insertionSort (fun i j => v.getD j 0 ≤ v.getD i 0) (List.range v.length)

/-- In-place `mask[idx] = 1.` for a list of indices (`prune.py:481`). -/
def setIdx (m : List Bool) (idx : List Nat) : List Bool :=
  idx.foldl (fun acc i => acc.set i true) m

/-- Floor enforcement (`prune.py:478-481`): if the mask retains fewer than
`min_channel_num = 2` channels, the top-2 channels by scale magnitude are
force-set to `true` (in place, so `maskbndict` sees the patched mask). -/
def enforceMask (wcopy : List ℚ) (m : List Bool) : List Bool :=
  if m.count true < 2 then setIdx m ((argsortDesc wcopy).take 2) else m

/-- The final mask stored in `maskbndict` for a layer: the raw mask after
floor enforcement, where `weight_copy` is the magnitude of the layer's
original (pre-zeroing) scale vector. -/
def finalMask (thre : ℚ) (l : BNLayer) : List Bool :=
  enforceMask (l.weight.map qabs) (rawMask thre l)

/-- In-place `tensor.mul_(mask)` with a 0/1 float mask
(`prune.py:475-476`): channels with a `false` mask entry are zeroed.  Note
this uses the raw mask — it runs before floor enforcement patches it. -/
def maskMul (v : List ℚ) (m : List Bool) : List ℚ :=
  List.zipWith (fun x b => if b then x else 0) v m

/-- The scoring loop over all BatchNorm layers (`prune.py:464-483`), in
module order.  For each layer it stores the (eventually enforced) mask,
zeroes the dropped channels' scale and bias in place with the raw mask,
and then checks `assert int(mask.sum()) > 0`.  Returns the network's BN
layers after the in-place mutations (layers after an aborting one are
untouched), the collected masks, and `false` iff the assertion fired.
A raised assertion leaves the already-performed mutations in place, which
the error component of the pipeline records. -/
def scoreLoop (thre : ℚ) : List BNLayer → List BNLayer × List (List Bool) × Bool
  | [] => ([], [], true)
  | l :: rest =>
    let raw := rawMask thre l
    let fm := finalMask thre l
    let l' : BNLayer := ⟨l.name, maskMul l.weight raw, maskMul l.bias raw, l.excluded⟩
    if fm.count true = 0 then (l' :: rest, [fm], false)
    else
      let r := scoreLoop thre rest
      (l' :: r.1, fm :: r.2.1, r.2.2)

/-- Association-list lookup with decidable key equality, modelling Python
dictionary lookup (`maskbndict`, `from_to_map`, `modelstate`). -/
def alookup {κ α : Type} [DecidableEq κ] (k : κ) : List (κ × α) → Option α
  | [] => none
  | p :: r => if k = p.1 then some p.2 else alookup k r

/-- Does `pat` occur at the head of `s`? (helper for substring search). -/
def begMatch : List Char → List Char → Bool
  | [], _ => true
  | _ :: _, [] => false
  | a :: as, b :: bs => a == b && begMatch as bs

/-- Does `pat` occur anywhere inside the second list? -/
def subMatch (pat : List Char) : List Char → Bool
  | [] => begMatch pat []
  | c :: cs => begMatch pat (c :: cs) || subMatch pat cs

/-- Python `"proto" in layername` (`prune.py:541,556`): the transplant loop
skips every layer whose name mentions the segmentation prototype branch. -/
def protoIn (s : String) : Bool := subMatch "proto".data s.data

/-- `layername[:-4] + "bn"` (`prune.py:506,510`): the name of the
normalization layer fused with a convolution (`....conv` ↦ `....bn`). -/
def bnNameOf (convName : String) : String :=
  String.mk (convName.data.take (convName.data.length - 4) ++ "bn".data)

/-- The retained-channel indices of a mask:
`[i for i in range(mask.shape[0]) if mask[i] == 1]` (`prune.py:525`), and
also `np.argwhere(mask)` for the output/input slicing indices. -/
def retainedIdx (m : List Bool) : List Nat :=
  (List.range m.length).filter (fun i => m.getD i false)

/-- The concatenation-offset loop body (`prune.py:522-528`): each source
contributes its retained indices, offset by the sum of the original
(pre-mask) channel widths `orignin` of all preceding sources.  The input
pairs a mask with the source's original width. -/
def formerinW : Nat → List (List Bool × Nat) → List Nat
  | _, [] => []
  | off, p :: rest => (retainedIdx p.1).map (· + off) ++ formerinW (off + p.2) rest

/-- The full `formerin` index list for a multi-source (`Concat`) provenance
entry, given the sources' masks in order.  A source's original pre-mask
channel width (`orignin[it] = modelstate[former[it]+".weight"].shape[0]`,
`prune.py:521`) is the length of its mask, since every mask is created
with the layer's full channel count. -/
def formerin (ms : List (List Bool)) : List Nat :=
  formerinW 0 (ms.map (fun m => (m, m.length)))

/-- The per-channel parameters of a normalization layer as stored in a
checkpoint: scale, shift, running mean and running variance. -/
structure BNP where
  weight : List ℚ
  bias : List ℚ
  running_mean : List ℚ
  running_var : List ℚ
deriving DecidableEq

/-- A provenance entry of `from_to_map`: a single upstream normalization
layer name, or an ordered list of them (concatenation case). -/
inductive FormerE where
  | one (s : String)
  | many (ss : List String)
deriving DecidableEq

/-- A layer of the (original or rebuilt) network as the transplant loop
sees it (`prune.py:503-565`), matched by `isinstance` and name:
* `conv`: an `nn.Conv2d` whose name does not start with `"model.24"`;
  its kernel is the out-channel × in-channel matrix (no bias);
* `bn`: an `nn.BatchNorm2d`;
* `headConv`: an `nn.Conv2d` whose name starts with `"model.24"`
  (detection/segmentation head, with a bias vector). -/
inductive NLayer where
  | conv (name : String) (w : List (List ℚ))
  | bn (name : String) (p : BNP)
  | headConv (name : String) (w : List (List ℚ)) (b : List ℚ)
deriving DecidableEq

/-- `w[idx, :, :, :]`: select the given output-channel rows. -/
def sliceRows (w : List (List ℚ)) (idx : List Nat) : List (List ℚ) :=
  idx.map (fun i => w.getD i [])

/-- `w[:, idx, :, :]`: select the given input-channel columns. -/
def sliceCols (w : List (List ℚ)) (idx : List Nat) : List (List ℚ) :=
  w.map (fun row => idx.map (fun i => row.getD i 0))

/-- `v[idx]`: select the given entries of a per-channel vector. -/
def sliceV (v : List ℚ) (idx : List Nat) : List ℚ :=
  idx.map (fun i => v.getD i 0)

/-- Mask lookup `maskbndict[name]` (total, with an empty default). -/
def lookupMask (mbd : List (String × List Bool)) (s : String) : List Bool :=
  (alookup s mbd).getD []

/-- The `nn.BatchNorm2d` branch of the transplant loop (`prune.py:540-553`).
When the name mentions `proto` the code executes `pruned_layer = layer`,
which only rebinds the loop-local Python variable: NOTHING is copied into
the rebuilt network, which keeps its initialization values, and nothing is
appended to `changed_state`.  Otherwise scale, bias, running mean and
running variance are sliced by the layer's own mask and copied, and five
tensor names are appended to `changed_state`. -/
def bnCopy (name : String) (mask : List Bool) (orig pruned : BNP) : BNP × List String :=
  if protoIn name then (pruned, [])
  else
    let oi := retainedIdx mask
    (⟨sliceV orig.weight oi, sliceV orig.bias oi,
      sliceV orig.running_mean oi, sliceV orig.running_var oi⟩,
     [name ++ ".weight", name ++ ".bias", name ++ ".running_mean",
      name ++ ".running_var", name ++ ".num_batches_tracked"])

/-- One iteration of the transplant loop (`prune.py:503-565`) for a pair of
same-named layers (original, rebuilt).  Returns the rebuilt layer after
the iteration and the names appended to `changed_state`.
* non-head convolution (`prune.py:505-538`): look up
  `from_to_map[layername[:-4]+"bn"]`; a string provenance slices input by
  the upstream mask then output by the own mask; a list provenance builds
  the offset index list `formerin` from the sources' masks and original
  widths (from `modelstate`) and slices output then input; no provenance
  slices output only;
* normalization layer: `bnCopy`;
* head convolution (`prune.py:555-565`): `proto` layers are skipped (the
  `pruned_layer = layer` no-op); otherwise input is sliced by the source's
  mask and the bias is copied verbatim. -/
def transplantStep (mbd : List (String × List Bool)) (ftm : List (String × FormerE))
    (widths : List (String × Nat)) : NLayer → NLayer → NLayer × List String
  | NLayer.conv nm w, _ =>
    let bnNm := bnNameOf nm
    let out_idx := retainedIdx (lookupMask mbd bnNm)
    (match alookup bnNm ftm with
     | some (FormerE.one former) =>
       (NLayer.conv nm (sliceRows (sliceCols w (retainedIdx (lookupMask mbd former))) out_idx),
        [nm ++ ".weight"])
     | some (FormerE.many fs) =>
       let orignin := fs.map (fun s => (alookup (s ++ ".weight") widths).getD 0)
       let fin := formerinW 0 ((fs.map (lookupMask mbd)).zip orignin)
       (NLayer.conv nm (sliceCols (sliceRows w out_idx) fin), [nm ++ ".weight"])
     | none => (NLayer.conv nm (sliceRows w out_idx), [nm ++ ".weight"]))
  | NLayer.bn nm p, pr =>
    (match pr with
     | NLayer.bn _ pp =>
       let r := bnCopy nm (lookupMask mbd nm) p pp
       (NLayer.bn nm r.1, r.2)
     | other => (other, []))
  | NLayer.headConv nm w b, pr =>
    if protoIn nm then (pr, [])
    else
      (match alookup nm ftm with
       | some (FormerE.one former) =>
         (NLayer.headConv nm (sliceCols w (retainedIdx (lookupMask mbd former))) b,
          [nm ++ ".weight", nm ++ ".bias"])
       | _ => (pr, []))

/-- The whole transplant loop over the zipped (original, rebuilt) layer
pairs (`prune.py:503`), accumulating `changed_state`. -/
def runTransplant (mbd : List (String × List Bool)) (ftm : List (String × FormerE))
    (widths : List (String × Nat)) : List (NLayer × NLayer) → List NLayer × List String
  | [] => ([], [])
  | p :: rest =>
    let s := transplantStep mbd ftm widths p.1 p.2
    let r := runTransplant mbd ftm widths rest
    (s.1 :: r.1, s.2 ++ r.2)

/-- The tensor names a layer declares in its `state_dict`
(`pruned_model_state.keys()`). -/
def declaredKeys : NLayer → List String
  | NLayer.conv nm _ => [nm ++ ".weight"]
  | NLayer.bn nm _ =>
    [nm ++ ".weight", nm ++ ".bias", nm ++ ".running_mean",
     nm ++ ".running_var", nm ++ ".num_batches_tracked"]
  | NLayer.headConv nm _ _ => [nm ++ ".weight", nm ++ ".bias"]

/-- Membership in `changed_state`. -/
def memStr (s : String) : List String → Bool
  | [] => false
  | t :: r => if s = t then true else memStr s r

/-- The scorer mutates the original network's normalization scale and bias
in place (`prune.py:475-476`) before the transplant loop reads them; the
transplant therefore sees the mutated values.  This substitutes the
post-scoring parameters into the original-network view of a layer pair
(running statistics are not mutated by the scorer). -/
def substMutated (ms : List BNLayer) : NLayer → NLayer
  | NLayer.bn nm p =>
    (match ms.find? (fun l => l.name = nm) with
     | some ml => NLayer.bn nm ⟨ml.weight, ml.bias, p.running_mean, p.running_var⟩
     | none => NLayer.bn nm p)
  | l => l

/-- Fatal aborts of `prune_model`: the `IndexError` of `sorted_bn[thre_index]`
(`prune.py:401`) and the `assert int(mask.sum()) > 0` (`prune.py:483`).
The latter carries the original network's BN layers as they are at the
moment the assertion fires: the in-place zeroing already performed on
them persists. -/
inductive PruneAbort where
  | threshIndexErr
  | zeroChannels (state : List BNLayer)
deriving DecidableEq

/-- Everything `prune_model` computes that does not depend on its `percent`
parameter: the threshold, the mask dictionary, the mutated original BN
layers, the populated rebuilt network, and the `missing` list of declared
tensor names never written by the transplant loop (`prune.py:567`). -/
structure CoreOut where
  thre : ℚ
  masks : List (String × List Bool)
  mutated : List BNLayer
  prunedLayers : List NLayer
  missing : List String
deriving DecidableEq

/-- The full result of `prune_model`: the checkpoint is written
unconditionally (`torch.save`, `prune.py:577`) — `saved` is `true` in
every non-aborting run, whether or not `missing` is empty — and the
`percent` parameter enters only the checkpoint filename
(`prune.py:575`), recorded here as `savedPathTag`. -/
structure PruneOut extends CoreOut where
  savedPathTag : ℚ
  saved : Bool
deriving DecidableEq

/-- The input of `prune_model`: the original network's BN layers in module
order (scorer view), the zipped (original, rebuilt) layer pairs
(transplant view), and the provenance map `from_to_map` produced by
`parse_pruned_model`. -/
structure PruneIn where
  bnLayers : List BNLayer
  pairs : List (NLayer × NLayer)
  ftm : List (String × FormerE)
deriving DecidableEq

/-- The `percent`-independent part of `prune_model` (`prune.py:350-577`):
threshold selection from the global `opt.percent` (`prune.py:400-401`),
the scoring loop with its in-place zeroing and fatal assertion
(`prune.py:464-483`), then the transplant loop over the layer pairs with
the original BN parameters replaced by their mutated values, and finally
the `missing` list (`prune.py:567`), which the code computes but never
checks. -/
def pruneCore (inp : PruneIn) (optPercent : ℚ) : Except PruneAbort CoreOut :=
  match threOf inp.bnLayers optPercent with
  | none => Except.error PruneAbort.threshIndexErr
  | some thre =>
    if (scoreLoop thre inp.bnLayers).2.2 then
      Except.ok
        { thre := thre
          masks := (inp.bnLayers.map BNLayer.name).zip (scoreLoop thre inp.bnLayers).2.1
          mutated := (scoreLoop thre inp.bnLayers).1
          prunedLayers :=
            (runTransplant ((inp.bnLayers.map BNLayer.name).zip (scoreLoop thre inp.bnLayers).2.1)
              inp.ftm (inp.bnLayers.map (fun l => (l.name ++ ".weight", l.weight.length)))
              (inp.pairs.map (fun op => (substMutated (scoreLoop thre inp.bnLayers).1 op.1, op.2)))).1
          missing :=
            ((runTransplant ((inp.bnLayers.map BNLayer.name).zip (scoreLoop thre inp.bnLayers).2.1)
                inp.ftm (inp.bnLayers.map (fun l => (l.name ++ ".weight", l.weight.length)))
                (inp.pairs.map (fun op => (substMutated (scoreLoop thre inp.bnLayers).1 op.1, op.2)))).1.flatMap
              declaredKeys).filter
              (fun k => !(memStr k
                (runTransplant ((inp.bnLayers.map BNLayer.name).zip (scoreLoop thre inp.bnLayers).2.1)
                  inp.ftm (inp.bnLayers.map (fun l => (l.name ++ ".weight", l.weight.length)))
                  (inp.pairs.map (fun op => (substMutated (scoreLoop thre inp.bnLayers).1 op.1, op.2)))).2)) }
    else Except.error (PruneAbort.zeroChannels (scoreLoop thre inp.bnLayers).1)

/-- `prune_model(originModel, weights, cfg, percent)` (`prune.py:350-579`).
The `percent` parameter is used only in the log line (`prune.py:353`) and
the saved checkpoint path (`prune.py:575`); the pruning threshold is read
from the global `opt.percent` (`prune.py:400`), here `optPercent`. -/
def prune_model (inp : PruneIn) (optPercent percentParam : ℚ) : Except PruneAbort PruneOut :=
  (pruneCore inp optPercent).map (fun c => ⟨c, percentParam, true⟩)

/-!
## Provenance-map construction for a `C3Pruned` block

`parse_pruned_model` (`src/prune/parse_yolo.py:65-96`) builds, for each
three-branch composite block `model.{i}`, the `from_to_map` entries of its
sub-layers.  The sub-layer names are produced by fixed format strings over
the block's base name (`named_m_base + ".cv1.bn"`,
`named_m_base + ".m.{p}.cv1.bn"`, ...); distinct patterns and distinct
indices yield distinct strings, which the inductive key type `C3Sub`
mirrors, one constructor per format pattern. -/

/-- A sub-layer of a `C3Pruned` block `model.{i}`:
`cv1` = `"model.{i}.cv1.bn"` (the entry convolution's normalization),
`cv2` = `"model.{i}.cv2.bn"` (the side convolution's),
`cv3` = `"model.{i}.cv3.bn"` (the exit convolution's),
`mCv1 p` = `"model.{i}.m.{p}.cv1.bn"` and `mCv2 p` = `"model.{i}.m.{p}.cv2.bn"`
(the two halves of internal bottleneck `p`). -/
inductive C3Sub where
  | cv1
  | cv2
  | cv3
  | mCv1 (p : Nat)
  | mCv2 (p : Nat)
deriving DecidableEq

/-- A `from_to_map` value for a `C3Pruned` block's sub-layer:
`fromPrev` is `fromlayer[f]`, the block's upstream source
(`parse_yolo.py:69-70`); `single s` a one-source entry; `concat2 a b` the
two-source list `[a, b]` of the exit convolution (`parse_yolo.py:96`). -/
inductive C3Prov where
  | fromPrev
  | single (s : C3Sub)
  | concat2 (a b : C3Sub)
deriving DecidableEq

/-- The loop of `parse_yolo.py:82-92` after `p` iterations: the running
`c3fromlayer` list (seeded with `[named_m_cv1_bn]`, `parse_yolo.py:81`,
extended with each bottleneck's `cv2` name) and the `from_to_map` entries
added so far.  At iteration `p` the list has `p+1` entries, so
`c3fromlayer[p]` is its last element, `(c3Chain p).1.getD p _`. -/
def c3Chain : Nat → List C3Sub × List (C3Sub × C3Prov)
  | 0 => ([C3Sub.cv1], [])
  | n + 1 =>
    let fl := (c3Chain n).1
    let mp := (c3Chain n).2
    (fl ++ [C3Sub.mCv2 n],
     mp ++ [(C3Sub.mCv1 n, C3Prov.single (fl.getD n C3Sub.cv1)),
            (C3Sub.mCv2 n, C3Prov.single (C3Sub.mCv1 n))])

/-- The complete `from_to_map` restricted to one `C3Pruned` block with `n`
internal bottlenecks (`parse_yolo.py:69-70,90-91,96`): the entry and side
convolutions read from the block's upstream source, the internal chain as
built by `c3Chain`, and the exit convolution reads from
`[c3fromlayer[-1], named_m_cv2_bn]` — the last element of the chain list
followed by the side convolution. -/
def c3FromToMap (n : Nat) : List (C3Sub × C3Prov) :=
  (C3Sub.cv1, C3Prov.fromPrev) ::
  (C3Sub.cv2, C3Prov.fromPrev) ::
  ((c3Chain n).2 ++ [(C3Sub.cv3, C3Prov.concat2 ((c3Chain n).1.getLastD C3Sub.cv1) C3Sub.cv2)])

/-- The normalization layer feeding internal bottleneck `k`'s first
convolution, per the spec's chaining: the entry convolution for `k = 0`,
the previous bottleneck's second convolution for `k > 0`. -/
def chainFrom : Nat → C3Sub
  | 0 => C3Sub.cv1
  | k + 1 => C3Sub.mCv2 k

/-!
## Concrete instances used by the claims -/

/-- A segmentation-style input: one prunable backbone normalization layer
and one prototype-branch (`Proto`, hence excluded) normalization layer,
with the rebuilt network's layers still at their initialization values. -/
def inpSeg : PruneIn :=
  ⟨[⟨"model.0.bn", [5,4], [6,7], false⟩, ⟨"model.24.proto.cv1.bn", [3,4], [1,2], true⟩],
   [(NLayer.bn "model.0.bn" ⟨[5,4],[6,7],[0,0],[1,1]⟩,
     NLayer.bn "model.0.bn" ⟨[0,0],[0,0],[0,0],[1,1]⟩),
    (NLayer.bn "model.24.proto.cv1.bn" ⟨[3,4],[1,2],[5,6],[7,8]⟩,
     NLayer.bn "model.24.proto.cv1.bn" ⟨[0,0],[0,0],[0,0],[1,1]⟩)],
   []⟩

/-- An input on which the zero-retained-channels assertion fires: layer
`"a"` loses channel 1 to the threshold, then the zero-channel layer `"b"`
trips `assert int(mask.sum()) > 0`. -/
def inpC4 : PruneIn := ⟨[⟨"a", [5,1], [5,1], false⟩, ⟨"b", [], [], false⟩], [], []⟩

/-- A four-channel single-layer input with scale pool `[1,2,3,4]`. -/
def inp4 : PruneIn := ⟨[⟨"a", [1,2,3,4], [0,0,0,0], false⟩], [], []⟩

/-- Source A of the spec's concatenation scenario: original width 128,
retaining channels 0, 5 and 9. -/
def cMaskA : List Bool := (List.range 128).map (fun i => decide (i = 0 ∨ i = 5 ∨ i = 9))

/-- Source B of the spec's concatenation scenario: original width 64,
retaining channels 2 and 3. -/
def cMaskB : List Bool := (List.range 64).map (fun i => decide (i = 2 ∨ i = 3))

/-- A 2-channel layer on which floor enforcement fires: only channel 0
survives the threshold 3, so the top-2 patch force-keeps channel 1. -/
def lC10 : BNLayer := ⟨"model.5.bn", [5,1], [7,2], false⟩

/-- A 1-channel prunable layer. -/
def lOne : BNLayer := ⟨"model.9.bn", [1], [1], false⟩

/-- A 3-channel excluded (residual-add branch) layer. -/
def lExc : BNLayer := ⟨"model.2.m.0.cv1.bn", [3,4,5], [1,1,1], true⟩

/-- The original parameters of a prototype-branch normalization layer. -/
def protoOrig : BNP := ⟨[3,4],[1,2],[5,6],[7,8]⟩

/-- The zero-initialized parameters the rebuilt network starts from. -/
def protoInit : BNP := ⟨[0,0],[0,0],[0,0],[1,1]⟩

/-- A 2-channel prunable layer for the floor-invariant witness. -/
def lC6 : BNLayer := ⟨"model.3.bn", [5,1], [2,9], false⟩

/-!
## Helper lemmas about the mask machinery -/

theorem setIdx_cons (m : List Bool) (i : Nat) (r : List Nat) :
    setIdx m (i :: r) = setIdx (m.set i true) r := rfl

theorem getD_set_self : ∀ (m : List Bool) (c : Nat), c < m.length →
    (m.set c true).getD c false = true
  | [], c, h => absurd h (Nat.not_lt_zero c)
  | _ :: _, 0, _ => rfl
  | _ :: t, c + 1, h => getD_set_self t c (Nat.lt_of_succ_lt_succ h)

theorem getD_set_other : ∀ (m : List Bool) (i c : Nat), i ≠ c →
    (m.set i true).getD c false = m.getD c false
  | [], _, _, _ => rfl
  | _ :: _, 0, 0, h => absurd rfl h
  | _ :: _, 0, _ + 1, _ => rfl
  | _ :: _, _ + 1, 0, _ => rfl
  | _ :: t, i + 1, c + 1, h =>
    getD_set_other t i c (fun e => h (by rw [e]))

theorem length_setIdx : ∀ (idx : List Nat) (m : List Bool),
    (setIdx m idx).length = m.length
  | [], _ => rfl
  | i :: r, m => by rw [setIdx_cons, length_setIdx r, List.length_set]

theorem setIdx_getD_notmem : ∀ (idx : List Nat) (m : List Bool) (c : Nat), c ∉ idx →
    (setIdx m idx).getD c false = m.getD c false
  | [], _, _, _ => rfl
  | i :: r, m, c, h => by
    rw [setIdx_cons, setIdx_getD_notmem r _ c (fun hc => h (List.mem_cons_of_mem i hc)),
        getD_set_other m i c (fun e => h (e ▸ List.mem_cons_self i r))]

theorem setIdx_getD_mem : ∀ (idx : List Nat) (m : List Bool) (c : Nat), c ∈ idx →
    c < m.length → (setIdx m idx).getD c false = true
  | [], _, _, h, _ => absurd h (List.not_mem_nil _)
  | i :: r, m, c, h, hc => by
    by_cases hr : c ∈ r
    · rw [setIdx_cons]
      exact setIdx_getD_mem r _ c hr (by rw [List.length_set]; exact hc)
    · have hci : c = i := by
        rcases List.mem_cons.mp h with h1 | h2
        · exact h1
        · exact absurd h2 hr
      rw [setIdx_cons, setIdx_getD_notmem r _ c hr, hci, getD_set_self m i (hci ▸ hc)]

theorem getD_true_mem : ∀ (l : List Bool) (c : Nat), l.getD c false = true → true ∈ l
  | [], _, h => absurd h (by simp)
  | b :: t, 0, h => by
    have hb : b = true := h
    rw [hb]
    exact List.mem_cons_self true t
  | b :: t, c + 1, h => List.mem_cons_of_mem b (getD_true_mem t c h)

theorem twoTrueLe : ∀ (l : List Bool) (i j : Nat), i ≠ j →
    l.getD i false = true → l.getD j false = true → 2 ≤ l.count true
  | [], _, _, _, hi, _ => absurd hi (by simp)
  | _ :: _, 0, 0, hij, _, _ => absurd rfl hij
  | b :: t, 0, j + 1, _, hi, hj => by
    have hb : b = true := hi
    have hmem : true ∈ t := getD_true_mem t j hj
    have h1 : 1 ≤ t.count true := List.count_pos_iff.2 hmem
    rw [hb]
    simp only [List.count_cons_self]
    omega
  | b :: t, i + 1, 0, _, hi, hj => by
    have hb : b = true := hj
    have hmem : true ∈ t := getD_true_mem t i hi
    have h1 : 1 ≤ t.count true := List.count_pos_iff.2 hmem
    rw [hb]
    simp only [List.count_cons_self]
    omega
  | b :: t, i + 1, j + 1, hij, hi, hj => by
    have ih := twoTrueLe t i j (fun e => hij (by rw [e])) hi hj
    have hc : t.count true ≤ (b :: t).count true := by
      simp only [List.count_cons]
      omega
    omega

theorem argsortDesc_perm (v : List ℚ) :
    List.Perm (argsortDesc v) (List.range v.length) :=
  List.perm_insertionSort _ _

theorem argsortDesc_mem_lt (v : List ℚ) (i : Nat) (h : i ∈ argsortDesc v) :
    i < v.length :=
  List.mem_range.1 ((argsortDesc_perm v).mem_iff.1 h)

theorem argsortDesc_nodup (v : List ℚ) : (argsortDesc v).Nodup :=
  ((argsortDesc_perm v).nodup_iff).2 (List.nodup_range _)

theorem argsortDesc_length (v : List ℚ) : (argsortDesc v).length = v.length := by
  rw [(argsortDesc_perm v).length_eq, List.length_range]

theorem exists_two_head : ∀ (l : List Nat), 2 ≤ l.length → ∃ a b t, l = a :: b :: t
  | [], h => absurd h (by simp)
  | [_], h => absurd h (by simp)
  | a :: b :: t, _ => ⟨a, b, t, rfl⟩

theorem length_rawMask (thre : ℚ) (l : BNLayer) :
    (rawMask thre l).length = l.weight.length := by
  unfold rawMask
  split
  · exact List.length_replicate _ _
  · exact List.length_map _ _

theorem length_enforceMask (wcopy : List ℚ) (m : List Bool) :
    (enforceMask wcopy m).length = m.length := by
  unfold enforceMask
  split
  · exact length_setIdx _ _
  · rfl

theorem enforceMask_two_le (wcopy : List ℚ) (m : List Bool)
    (hl : m.length = wcopy.length) (h2 : 2 ≤ wcopy.length) :
    2 ≤ (enforceMask wcopy m).count true := by
  unfold enforceMask
  by_cases h : m.count true < 2
  · rw [if_pos h]
    obtain ⟨a, b, t, he⟩ :=
      exists_two_head (argsortDesc wcopy) (by rw [argsortDesc_length]; exact h2)
    have hmem_a : a ∈ argsortDesc wcopy := by rw [he]; exact List.mem_cons_self a _
    have hmem_b : b ∈ argsortDesc wcopy := by
      rw [he]; exact List.mem_cons_of_mem a (List.mem_cons_self b t)
    have ha : a < m.length := by rw [hl]; exact argsortDesc_mem_lt wcopy a hmem_a
    have hb : b < m.length := by rw [hl]; exact argsortDesc_mem_lt wcopy b hmem_b
    have hab : a ≠ b := by
      have hnd := argsortDesc_nodup wcopy
      rw [he, List.nodup_cons] at hnd
      exact fun e => hnd.1 (e ▸ List.mem_cons_self b t)
    have htake : (argsortDesc wcopy).take 2 = [a, b] := by rw [he]; rfl
    rw [htake]
    have hset : setIdx m [a, b] = (m.set a true).set b true := rfl
    rw [hset]
    have hgb : ((m.set a true).set b true).getD b false = true :=
      getD_set_self _ b (by rw [List.length_set]; exact hb)
    have hga : ((m.set a true).set b true).getD a false = true := by
      rw [getD_set_other _ b a (fun e => hab e.symm)]
      exact getD_set_self _ a ha
    exact twoTrueLe _ a b hab hga hgb
  · rw [if_neg h]
    omega

theorem set_true_replicate : ∀ (n i : Nat),
    (List.replicate n true).set i true = List.replicate n true
  | 0, _ => rfl
  | _ + 1, 0 => rfl
  | n + 1, i + 1 => congrArg (List.cons true) (set_true_replicate n i)

theorem setIdx_replicate : ∀ (idx : List Nat) (n : Nat),
    setIdx (List.replicate n true) idx = List.replicate n true
  | [], _ => rfl
  | i :: r, n => by rw [setIdx_cons, set_true_replicate n i, setIdx_replicate r n]

theorem maskMul_getD_zero : ∀ (v : List ℚ) (m : List Bool) (c : Nat),
    m.getD c false = false → (maskMul v m).getD c 0 = 0
  | [], m, c, _ => by simp [maskMul]
  | _ :: _, [], c, _ => by simp [maskMul]
  | x :: xs, b :: bs, 0, h => by
    have hb : b = false := h
    simp [maskMul, hb]
  | x :: xs, b :: bs, c + 1, h => maskMul_getD_zero xs bs c h

theorem formerinW_spec : ∀ (ms : List (List Bool)) (off : Nat),
    formerinW off (ms.map (fun m => (m, m.length))) =
      (List.range ms.length).flatMap
        (fun it => (retainedIdx (ms.getD it [])).map
          (fun k => k + (off + ((ms.take it).map List.length).sum)))
  | [], off => by simp [formerinW]
  | m :: rest, off => by
    rw [List.map_cons, formerinW, formerinW_spec rest (off + m.length),
        List.length_cons, List.range_succ_eq_map, List.flatMap_cons, List.flatMap_map]
    refine congrArg₂ (· ++ ·) ?_ (List.flatMap_congr ?_)
    · simp
    · intro it _
      simp [Nat.add_assoc]

theorem alookup_append_some {κ α : Type} [DecidableEq κ] (k : κ) (v : α) :
    ∀ (l1 l2 : List (κ × α)), alookup k l1 = some v → alookup k (l1 ++ l2) = some v
  | [], _, h => by simp [alookup] at h
  | p :: r, l2, h => by
    rw [List.cons_append, alookup]
    rw [alookup] at h
    by_cases hk : k = p.1
    · rw [if_pos hk] at h ⊢
      exact h
    · rw [if_neg hk] at h ⊢
      exact alookup_append_some k v r l2 h

theorem alookup_append_none {κ α : Type} [DecidableEq κ] (k : κ) :
    ∀ (l1 l2 : List (κ × α)), alookup k l1 = none → alookup k (l1 ++ l2) = alookup k l2
  | [], _, _ => rfl
  | p :: r, l2, h => by
    rw [List.cons_append, alookup]
    rw [alookup] at h
    by_cases hk : k = p.1
    · rw [if_pos hk] at h
      exact absurd h (by simp)
    · rw [if_neg hk] at h ⊢
      exact alookup_append_none k r l2 h

theorem c3Chain_list : ∀ n, (c3Chain n).1 = C3Sub.cv1 :: (List.range n).map C3Sub.mCv2
  | 0 => rfl
  | n + 1 => by
    show (c3Chain n).1 ++ [C3Sub.mCv2 n] = _
    rw [c3Chain_list n, List.range_succ, List.map_append]
    rfl

theorem c3Chain_length (n : Nat) : (c3Chain n).1.length = n + 1 := by
  rw [c3Chain_list]
  simp

theorem c3Chain_getD (n : Nat) : (c3Chain n).1.getD n C3Sub.cv1 = chainFrom n := by
  rw [c3Chain_list]
  cases n with
  | zero => rfl
  | succ k =>
    show ((List.range (k + 1)).map C3Sub.mCv2).getD k C3Sub.cv1 = C3Sub.mCv2 k
    rw [List.getD, List.get?_map, List.get?_range (by omega)]
    rfl

theorem c3Chain_getLastD (n : Nat) : (c3Chain n).1.getLastD C3Sub.cv1 = chainFrom n := by
  cases n with
  | zero => rfl
  | succ k =>
    show ((c3Chain k).1 ++ [C3Sub.mCv2 k]).getLastD C3Sub.cv1 = C3Sub.mCv2 k
    simp

theorem c3Chain_none_mCv1 : ∀ (n k : Nat), n ≤ k →
    alookup (C3Sub.mCv1 k) (c3Chain n).2 = none
  | 0, _, _ => rfl
  | n + 1, k, h => by
    show alookup (C3Sub.mCv1 k) ((c3Chain n).2 ++ _) = none
    rw [alookup_append_none _ _ _ (c3Chain_none_mCv1 n k (by omega))]
    rw [alookup, if_neg (by simp; omega), alookup, if_neg (by simp), alookup]

theorem c3Chain_none_mCv2 : ∀ (n k : Nat), n ≤ k →
    alookup (C3Sub.mCv2 k) (c3Chain n).2 = none
  | 0, _, _ => rfl
  | n + 1, k, h => by
    show alookup (C3Sub.mCv2 k) ((c3Chain n).2 ++ _) = none
    rw [alookup_append_none _ _ _ (c3Chain_none_mCv2 n k (by omega))]
    rw [alookup, if_neg (by simp), alookup, if_neg (by simp; omega), alookup]

theorem c3Chain_none_cv3 : ∀ (n : Nat), alookup C3Sub.cv3 (c3Chain n).2 = none
  | 0 => rfl
  | n + 1 => by
    show alookup C3Sub.cv3 ((c3Chain n).2 ++ _) = none
    rw [alookup_append_none _ _ _ (c3Chain_none_cv3 n)]
    rw [alookup, if_neg (by simp), alookup, if_neg (by simp), alookup]

theorem c3Chain_some_mCv1 : ∀ (n k : Nat), k < n →
    alookup (C3Sub.mCv1 k) (c3Chain n).2 = some (C3Prov.single (chainFrom k))
  | 0, _, h => absurd h (by omega)
  | n + 1, k, h => by
    show alookup (C3Sub.mCv1 k) ((c3Chain n).2 ++ _) = _
    by_cases hk : k < n
    · exact alookup_append_some _ _ _ _ (c3Chain_some_mCv1 n k hk)
    · have hkn : k = n := by omega
      rw [hkn]
      rw [alookup_append_none _ _ _ (c3Chain_none_mCv1 n n (by omega))]
      rw [alookup, if_pos rfl, c3Chain_getD]

theorem c3Chain_some_mCv2 : ∀ (n k : Nat), k < n →
    alookup (C3Sub.mCv2 k) (c3Chain n).2 = some (C3Prov.single (C3Sub.mCv1 k))
  | 0, _, h => absurd h (by omega)
  | n + 1, k, h => by
    show alookup (C3Sub.mCv2 k) ((c3Chain n).2 ++ _) = _
    by_cases hk : k < n
    · exact alookup_append_some _ _ _ _ (c3Chain_some_mCv2 n k hk)
    · have hkn : k = n := by omega
      rw [hkn]
      rw [alookup_append_none _ _ _ (c3Chain_none_mCv2 n n (by omega))]
      rw [alookup, if_neg (by simp), alookup, if_pos rfl]

theorem c3Map_mCv1 (n k : Nat) (hk : k < n) :
    alookup (C3Sub.mCv1 k) (c3FromToMap n) = some (C3Prov.single (chainFrom k)) := by
  rw [c3FromToMap, alookup, if_neg (by simp), alookup, if_neg (by simp)]
  exact alookup_append_some _ _ _ _ (c3Chain_some_mCv1 n k hk)

theorem c3Map_mCv2 (n k : Nat) (hk : k < n) :
    alookup (C3Sub.mCv2 k) (c3FromToMap n) = some (C3Prov.single (C3Sub.mCv1 k)) := by
  rw [c3FromToMap, alookup, if_neg (by simp), alookup, if_neg (by simp)]
  exact alookup_append_some _ _ _ _ (c3Chain_some_mCv2 n k hk)

theorem c3Map_cv3 (n : Nat) :
    alookup C3Sub.cv3 (c3FromToMap n) = some (C3Prov.concat2 (chainFrom n) C3Sub.cv2) := by
  rw [c3FromToMap, alookup, if_neg (by simp), alookup, if_neg (by simp)]
  rw [alookup_append_none _ _ _ (c3Chain_none_cv3 n)]
  rw [alookup, if_pos rfl, c3Chain_getLastD]

theorem chainFrom_succ (k : Nat) (hk : 0 < k) : chainFrom k = C3Sub.mCv2 (k - 1) := by
  cases k with
  | zero => omega
  | succ j => rfl

/-!
## The claims -/

/-- Claim C1.  The claim says the transplant engine checks that every
declared tensor of the rebuilt network was populated and aborts fatally
before the checkpoint is written otherwise.  The code computes the
`missing` list (`prune.py:567`) but never tests it, and `torch.save`
(`prune.py:577`) runs unconditionally: on `inpSeg` (a segmentation network
with a prototype-branch normalization layer, whose tensors the transplant
loop never writes) the run ends with five declared-but-never-written
tensor names and the checkpoint saved anyway. -/
theorem c1_completeness_unchecked :
    (prune_model inpSeg 0 (Rat.divInt 37 100)).map (fun r => (r.missing, r.saved)) =
      Except.ok (["model.24.proto.cv1.bn.weight", "model.24.proto.cv1.bn.bias",
        "model.24.proto.cv1.bn.running_mean", "model.24.proto.cv1.bn.running_var",
        "model.24.proto.cv1.bn.num_batches_tracked"], true) := by rfl

/-- Claim C2.  For a concatenation-provenance convolution the retained
input-channel index list takes each source's retained indices in order,
offset by the cumulative original (pre-mask) widths of the preceding
sources; in particular for a source of width 128 retaining 0, 5, 9
followed by a source of width 64 retaining 2, 3 the list is
`[0, 5, 9, 130, 131]`. -/
theorem c2_concat_offset :
    (∀ ms : List (List Bool),
      formerin ms = (List.range ms.length).flatMap
        (fun it => (retainedIdx (ms.getD it [])).map
          (fun k => k + ((ms.take it).map List.length).sum))) ∧
    formerin [cMaskA, cMaskB] = [0, 5, 9, 130, 131] := by
  constructor
  · intro ms
    rw [formerin, formerinW_spec ms 0]
    refine List.flatMap_congr (fun it _ => ?_)
    simp
  · decide

/-- Claim C3.  The claim says prototype-branch normalization layers are
copied verbatim into the rebuilt network.  The code's `pruned_layer =
layer` (`prune.py:542`) only rebinds a loop-local variable: the rebuilt
layer keeps its initialization values (here `protoInit`, not the
original `protoOrig`), and nothing is recorded in `changed_state`. -/
theorem c3_proto_bn_not_copied :
    (bnCopy "model.24.proto.cv1.bn" [true, true] protoOrig protoInit).1 = protoInit ∧
    protoInit.weight ≠ protoOrig.weight ∧
    (bnCopy "model.24.proto.cv1.bn" [true, true] protoOrig protoInit).2 = [] := by
  refine ⟨rfl, by decide, rfl⟩

/-- Claim C4 (amended).  When some layer retains zero channels even after
floor enforcement, the run aborts fatally — before the rebuilt network is
constructed and before any checkpoint is written — but NOT before mutating
the original network: the in-place zeroing of scale and bias already
performed on processed layers persists in the abort state. -/
theorem c4_abort_before_save (inp : PruneIn) (opt p t : ℚ)
    (ht : threOf inp.bnLayers opt = some t)
    (hz : (scoreLoop t inp.bnLayers).2.2 = false) :
    prune_model inp opt p =
      Except.error (PruneAbort.zeroChannels (scoreLoop t inp.bnLayers).1) := by
  unfold prune_model pruneCore
  simp only [ht, hz, Bool.false_eq_true, if_false, Except.map]

/-- Witness for C4's theorem at `inpC4` (threshold 1; layer `"b"` has zero
channels, so its mask sums to zero even after enforcement). -/
theorem c4_abort_before_save_witness :
    threOf inpC4.bnLayers 0 = some 1 ∧
    (scoreLoop 1 inpC4.bnLayers).2.2 = false ∧
    prune_model inpC4 0 0 =
      Except.error (PruneAbort.zeroChannels (scoreLoop 1 inpC4.bnLayers).1) :=
  ⟨by decide, by decide, c4_abort_before_save inpC4 0 0 1 (by decide) (by decide)⟩

/-- Counterexample to claim C4 as stated: at the abort, layer `"a"`'s scale
and bias have already been zeroed in place (`[5,1] ↦ [5,0]`), so the
original network's parameters are NOT left unchanged by the fatal
configuration error. -/
theorem c4_mutation_before_abort_cex :
    prune_model inpC4 0 0 = Except.error (PruneAbort.zeroChannels
      [⟨"a", [5,0], [5,0], false⟩, ⟨"b", [], [], false⟩]) ∧
    ([5,0] : List ℚ) ≠ [5,1] ∧
    (inpC4.bnLayers.getD 0 ⟨"", [], [], false⟩).weight = [5,1] := by
  refine ⟨by rfl, by decide, by decide⟩

/-- Claim C5.  Inside a three-branch composite block with `n` internal
bottlenecks the provenance map chains strictly: bottleneck 0's first
convolution reads from the entry convolution `cv1`; bottleneck `k`'s
first convolution reads from bottleneck `k-1`'s second convolution; and
the exit convolution `cv3` has the two-source provenance
`[last bottleneck's output, side convolution cv2]`, in that order. -/
theorem c5_c3_provenance_chain (n k : Nat) (hk : k < n) :
    alookup (C3Sub.mCv1 0) (c3FromToMap n) = some (C3Prov.single C3Sub.cv1) ∧
    alookup (C3Sub.mCv1 k) (c3FromToMap n) = some (C3Prov.single (chainFrom k)) ∧
    (0 < k → chainFrom k = C3Sub.mCv2 (k - 1)) ∧
    alookup C3Sub.cv3 (c3FromToMap n) =
      some (C3Prov.concat2 (C3Sub.mCv2 (n - 1)) C3Sub.cv2) := by
  have hn : 0 < n := by omega
  refine ⟨c3Map_mCv1 n 0 hn, c3Map_mCv1 n k hk, chainFrom_succ k, ?_⟩
  rw [c3Map_cv3 n, chainFrom_succ n hn]

/-- Witness for C5's theorem at chain length `n = 3`, bottleneck `k = 2`. -/
theorem c5_c3_provenance_chain_witness :
    2 < 3 ∧
    (alookup (C3Sub.mCv1 0) (c3FromToMap 3) = some (C3Prov.single C3Sub.cv1) ∧
     alookup (C3Sub.mCv1 2) (c3FromToMap 3) = some (C3Prov.single (chainFrom 2)) ∧
     (0 < 2 → chainFrom 2 = C3Sub.mCv2 1) ∧
     alookup C3Sub.cv3 (c3FromToMap 3) =
       some (C3Prov.concat2 (C3Sub.mCv2 2) C3Sub.cv2)) :=
  ⟨by decide, c5_c3_provenance_chain 3 2 (by decide)⟩

/-- Claim C6 (amended).  Every mask has length equal to its layer's
channel count, and for a non-excluded layer with at least
`min_channel_num = 2` channels the enforced mask retains at least 2
channels.  (A 1-channel layer can only retain its single channel — see
the counterexample.) -/
theorem c6_mask_floor (thre : ℚ) (l : BNLayer)
    (_hx : l.excluded = false) (h2 : 2 ≤ l.weight.length) :
    (finalMask thre l).length = l.weight.length ∧
    2 ≤ (finalMask thre l).count true := by
  constructor
  · unfold finalMask
    rw [length_enforceMask, length_rawMask]
  · exact enforceMask_two_le _ _ (by rw [length_rawMask, List.length_map])
      (by rw [List.length_map]; exact h2)

/-- Witness for C6's theorem at the 2-channel layer `lC6` with threshold 3
(only channel 0 passes the threshold; enforcement brings the count back
to 2). -/
theorem c6_mask_floor_witness :
    lC6.excluded = false ∧ 2 ≤ lC6.weight.length ∧
    ((finalMask 3 lC6).length = lC6.weight.length ∧
     2 ≤ (finalMask 3 lC6).count true) :=
  ⟨rfl, by decide, c6_mask_floor 3 lC6 rfl (by decide)⟩

/-- Counterexample to claim C6 as stated: a non-excluded 1-channel layer
(`lOne`, entirely below threshold 5) ends with popcount 1 < 2 — the
force-keep patch can only set `min(2, channel_count)` channels. -/
theorem c6_one_channel_cex :
    lOne.excluded = false ∧ ¬ 2 ≤ (finalMask 5 lOne).count true := by
  refine ⟨rfl, by decide⟩

/-- Claim C7 (amended).  The global threshold is the value at rank
`int(pool_size * opt.percent)` in the ascending-sorted pool of included
layers' scale magnitudes — where the ratio is the global `opt.percent`,
not the `percent` argument of `prune_model` (see the counterexample). -/
theorem c7_threshold_rank (ls : List BNLayer) (opt : ℚ) (l2 : List ℚ)
    (hp : List.Perm l2 (gather_bn_weights ls))
    (hs : l2.Sorted (· ≤ ·)) :
    threOf ls opt = l2.get? (threIndex (gather_bn_weights ls).length opt) := by
  have he : sortAsc (gather_bn_weights ls) = l2 :=
    List.eq_of_perm_of_sorted ((List.perm_insertionSort _ _).trans hp.symm)
      (List.sorted_insertionSort _ _) hs
  rw [threOf, he]

/-- Witness for C7's theorem at `inp4` (pool `[1,2,3,4]`, ratio 1/2:
rank 2, threshold 3). -/
theorem c7_threshold_rank_witness :
    List.Perm ([1, 2, 3, 4] : List ℚ) (gather_bn_weights inp4.bnLayers) ∧
    ([1, 2, 3, 4] : List ℚ).Sorted (· ≤ ·) ∧
    threOf inp4.bnLayers (Rat.divInt 1 2) =
      ([1, 2, 3, 4] : List ℚ).get?
        (threIndex (gather_bn_weights inp4.bnLayers).length (Rat.divInt 1 2)) :=
  ⟨by decide, by decide,
   c7_threshold_rank inp4.bnLayers (Rat.divInt 1 2) [1, 2, 3, 4] (by decide) (by decide)⟩

/-- Counterexample to claim C7 as stated: with global `opt.percent = 0`
and `percent` parameter 1/2, `prune_model` produces threshold 1 (rank 0),
not the rank-`floor(1/2 · 4) = 2` value 3 that the passed ratio would
give — the parameter is ignored by the threshold computation. -/
theorem c7_percent_param_cex :
    (prune_model inp4 0 (Rat.divInt 1 2)).map (fun r => r.thre) = Except.ok 1 ∧
    (sortAsc (gather_bn_weights inp4.bnLayers)).get?
      (threIndex (gather_bn_weights inp4.bnLayers).length (Rat.divInt 1 2)) = some 3 ∧
    (1 : ℚ) ≠ 3 := by
  refine ⟨by rfl, by decide, by decide⟩

/-- Claim C8.  Every excluded layer's mask is all-`true`, so its retained
channel count equals its original channel count. -/
theorem c8_excluded_full_width (thre : ℚ) (l : BNLayer) (hx : l.excluded = true) :
    finalMask thre l = List.replicate l.weight.length true ∧
    (finalMask thre l).count true = l.weight.length := by
  have hraw : rawMask thre l = List.replicate l.weight.length true := by
    unfold rawMask
    rw [hx]
    rfl
  have hfin : finalMask thre l = List.replicate l.weight.length true := by
    unfold finalMask enforceMask
    rw [hraw]
    split
    · exact setIdx_replicate _ _
    · rfl
  refine ⟨hfin, ?_⟩
  rw [hfin]
  simp

/-- Witness for C8's theorem at the excluded 3-channel layer `lExc` with a
threshold far above all its scales. -/
theorem c8_excluded_full_width_witness :
    lExc.excluded = true ∧
    (finalMask 100 lExc = List.replicate lExc.weight.length true ∧
     (finalMask 100 lExc).count true = lExc.weight.length) :=
  ⟨rfl, c8_excluded_full_width 100 lExc rfl⟩

/-- Claim C9.  Two runs of `prune_model` on the same input and the same
global option state that differ only in the `percent` argument produce
the same threshold and the same mask dictionary: the `percent` parameter
reaches only the log line and the checkpoint filename. -/
theorem c9_percent_param_invariance (inp : PruneIn) (opt p1 p2 : ℚ) :
    (prune_model inp opt p1).map (fun r => (r.thre, r.masks)) =
    (prune_model inp opt p2).map (fun r => (r.thre, r.masks)) := by
  unfold prune_model
  cases pruneCore inp opt <;> rfl

/-- Claim C10 (amended).  When floor enforcement fires, in-place zeroing
(with the raw mask) precedes the mask patch, so every force-kept channel
that the threshold had DROPPED has scale and bias 0 in the mutated
original network, is retained by the final mask, and is transplanted as
0 rather than its trained value.  (A force-kept channel that was already
above threshold keeps its trained value — see the counterexample.) -/
theorem c10_forced_channels_zero (l : BNLayer) (thre : ℚ) (c : Nat)
    (_hx : l.excluded = false)
    (hdrop : (rawMask thre l).getD c false = false)
    (hforce : c ∈ (argsortDesc (l.weight.map qabs)).take 2)
    (hfew : (rawMask thre l).count true < 2) :
    (maskMul l.weight (rawMask thre l)).getD c 0 = 0 ∧
    (maskMul l.bias (rawMask thre l)).getD c 0 = 0 ∧
    (finalMask thre l).getD c false = true ∧
    ∀ j, (retainedIdx (finalMask thre l)).get? j = some c →
      (sliceV (maskMul l.weight (rawMask thre l)) (retainedIdx (finalMask thre l))).get? j
        = some 0 := by
  have hc_mem : c ∈ argsortDesc (l.weight.map qabs) := List.mem_of_mem_take hforce
  have hc_lt : c < l.weight.length := by
    have h := argsortDesc_mem_lt _ c hc_mem
    rwa [List.length_map] at h
  have h1 := maskMul_getD_zero l.weight (rawMask thre l) c hdrop
  have h2 := maskMul_getD_zero l.bias (rawMask thre l) c hdrop
  have h3 : (finalMask thre l).getD c false = true := by
    unfold finalMask enforceMask
    rw [if_pos hfew]
    exact setIdx_getD_mem _ _ c hforce (by rw [length_rawMask]; exact hc_lt)
  refine ⟨h1, h2, h3, fun j hj => ?_⟩
  unfold sliceV
  rw [List.get?_map, hj]
  simpa [List.getD] using h1

/-- Witness for C10's theorem at `lC10` (scales `[5,1]`, threshold 3):
channel 1 is below threshold, is force-kept by the top-2 patch, and is
transplanted with scale 0 (position 1 of the sliced vector). -/
theorem c10_forced_channels_zero_witness :
    lC10.excluded = false ∧
    (rawMask 3 lC10).getD 1 false = false ∧
    1 ∈ (argsortDesc (lC10.weight.map qabs)).take 2 ∧
    (rawMask 3 lC10).count true < 2 ∧
    (maskMul lC10.weight (rawMask 3 lC10)).getD 1 0 = 0 ∧
    (maskMul lC10.bias (rawMask 3 lC10)).getD 1 0 = 0 ∧
    (finalMask 3 lC10).getD 1 false = true ∧
    (sliceV (maskMul lC10.weight (rawMask 3 lC10)) (retainedIdx (finalMask 3 lC10))).get? 1
      = some 0 := by
  have h := c10_forced_channels_zero lC10 3 1 rfl (by decide) (by decide) (by decide)
  exact ⟨rfl, by decide, by decide, by decide, h.1, h.2.1, h.2.2.1,
    h.2.2.2 1 (by decide)⟩

/-- Counterexample to claim C10 as stated: channel 0 of `lC10` is among
the force-set top-2 channels, yet its post-scoring scale is 5, not 0 (it
was above threshold, so the raw mask kept it and the zeroing left it
alone), and it is transplanted with its trained value 5. -/
theorem c10_above_threshold_kept_cex :
    0 ∈ (argsortDesc (lC10.weight.map qabs)).take 2 ∧
    (rawMask 3 lC10).count true < 2 ∧
    (maskMul lC10.weight (rawMask 3 lC10)).getD 0 0 = 5 ∧
    (sliceV (maskMul lC10.weight (rawMask 3 lC10)) (retainedIdx (finalMask 3 lC10))).get? 0
      = some 5 ∧
    (5 : ℚ) ≠ 0 := by
  refine ⟨by decide, by decide, by decide, by decide, by decide⟩
